import Mathlib

/-!
Shallow embedding of the raycasting renderer of the RogueAI repository
(`game/renderer3d.py`, the character-cell backend, and
`game/renderer3d_pygame.py`, the pixel-canvas backend).

Modelling conventions:
* Python floats are modelled by exact rationals `ℚ`; `math.cos`/`math.sin`
  of a bearing are passed in as the pair `(c, s)` of direction components,
  since the source computes them once at the top of each routine and only
  ever uses the components afterwards.  Inputs whose components are exact
  rationals (e.g. heading 0, where `cos = 1`, `sin = 0`) are represented
  exactly.
* Python `int(x)` truncates toward zero: modelled by `pyInt`.
  Python `//` on integers floors: modelled by `Int.fdiv`.
  Python `%` with positive modulus is nonnegative: `Int.emod` / `pyMod`.
* Python's IEEE `float('inf')` as used by the DDA caster is modelled by
  `ERat := Option ℚ` with `none` standing for `+∞`; the three operations
  the source performs on it (comparison, addition of a step, scaling by a
  strictly positive factor) are `eratLt`, `eratAdd`, `eratScale`.
* Unbounded `while` loops are given a fuel parameter; the fuel case is an
  artifact of the embedding (`none`, or the loop's own exit value where the
  real loop condition already bounds the iteration count).
-/

/-- Cell kinds of the dungeon grid, from `game/dungeon.py` (`CellType`). -/
inductive CellType where
  | WALL
  | FLOOR
  | DOOR
  | EMPTY
  | STAIRS_DOWN
deriving DecidableEq, Repr

/-- Entity/item type tags, from `game/entities.py` (`EntityType`). -/
inductive EntityType where
  | PLAYER
  | GOBLIN
  | ORC
  | POTION
  | WEAPON
  | SHIELD
  | GOLD
  | SHOPKEEPER
  | SPELLBOOK
  | BOSS
deriving DecidableEq, Repr

/-- Glyph of each entity type (`EntityType`'s `value` in `game/entities.py`). -/
def EntityType.value : EntityType → Char
  | .PLAYER => '@'
  | .GOBLIN => 'g'
  | .ORC => 'o'
  | .POTION => '!'
  | .WEAPON => ')'
  | .SHIELD => ']'
  | .GOLD => '$'
  | .SHOPKEEPER => 'S'
  | .SPELLBOOK => '&'
  | .BOSS => 'B'

/-- A live entity as the renderer reads it: integer grid position, hit
points and type (`Entity` in `game/entities.py`). -/
structure Entity where
  posX : ℤ
  posY : ℤ
  hp : ℤ
  etype : EntityType
deriving DecidableEq, Repr

/-- A floor item as the renderer reads it: the `(item_pos, item)` pairs of
`dungeon.items`, reduced to position and type. -/
structure MapItem where
  posX : ℤ
  posY : ℤ
  etype : EntityType
deriving DecidableEq, Repr

/-- The grid snapshot the renderer consumes: bounds plus cell-kind lookup
at integer coordinates (`Dungeon` of `game/dungeon.py`, restricted to
what the renderer reads; the source's row-major array `grid[y][x]`
becomes the lookup function `cell x y`, consulted only after the
source's bounds check). -/
structure Dungeon where
  width : ℕ
  height : ℕ
  cell : ℤ → ℤ → CellType

/-- Cell lookup `dungeon.grid[my][mx]`. -/
def cellAt (d : Dungeon) (mx my : ℤ) : CellType := d.cell mx my

/-- The out-of-bounds test both backends perform on a stepped map cell:
`map_x < 0 or map_x >= width or map_y < 0 or map_y >= height`. -/
def gridOOB (d : Dungeon) (mx my : ℤ) : Prop :=
  mx < 0 ∨ (d.width : ℤ) ≤ mx ∨ my < 0 ∨ (d.height : ℤ) ≤ my

instance (d : Dungeon) (mx my : ℤ) : Decidable (gridOOB d mx my) := by
  unfold gridOOB; infer_instance

/-- Python `int(x)` on a float: truncation toward zero. -/
def pyInt (q : ℚ) : ℤ :=
  if 0 ≤ q then ⌊q⌋ else -⌊-q⌋

theorem pyInt_of_nonneg {q : ℚ} (h : 0 ≤ q) : pyInt q = ⌊q⌋ := by
  simp [pyInt, h]

theorem pyInt_mono_of_nonneg {a b : ℚ} (ha : 0 ≤ a) (hab : a ≤ b) :
    pyInt a ≤ pyInt b := by
  rw [pyInt_of_nonneg ha, pyInt_of_nonneg (ha.trans hab)]
  exact Int.floor_le_floor hab

theorem pyInt_nonpos_of_neg {q : ℚ} (h : q < 0) : pyInt q ≤ 0 := by
  rw [pyInt, if_neg (not_le.mpr h)]
  have : (0 : ℚ) ≤ -q := by linarith
  have h0 : (0 : ℤ) ≤ ⌊-q⌋ := by
    exact_mod_cast Int.le_floor.mpr (by exact_mod_cast this)
  omega

/-- Python `a % b` on floats (`b > 0`): the representative in `[0, b)`. -/
def pyMod (a b : ℚ) : ℚ := a - b * ⌊a / b⌋

/-! ## Character-cell backend ray caster (`Renderer3D.cast_ray`)

Fixed-increment marching: step `0.1` along the bearing, sample the cell
under the current point, stop on `WALL` or `STAIRS_DOWN`, treat leaving
the grid as a `WALL` hit, and give up at `max_depth` with `FLOOR`. -/

/-- `self.max_depth = 20` (both backends use 20). -/
def maxDepth : ℚ := 20

/-- `step_size = 0.1` of `Renderer3D.cast_ray`. -/
def stepSize : ℚ := 1 / 10

/-- The x map coordinate sampled after `j` marching steps:
`int(start_x + j * (cos(angle) * step_size))`. -/
def cursesPosX (sx c : ℚ) (j : ℕ) : ℤ := pyInt (sx + j * (c * stepSize))

/-- The y map coordinate sampled after `j` marching steps. -/
def cursesPosY (sy s : ℚ) (j : ℕ) : ℤ := pyInt (sy + j * (s * stepSize))

/-- Whether the cell sampled at step `j` is out of bounds. -/
def cursesStepOOB (d : Dungeon) (sx sy c s : ℚ) (j : ℕ) : Prop :=
  gridOOB d (cursesPosX sx c j) (cursesPosY sy s j)

instance (d : Dungeon) (sx sy c s : ℚ) (j : ℕ) :
    Decidable (cursesStepOOB d sx sy c s j) := by
  unfold cursesStepOOB; infer_instance

/-- The cell sampled at step `j`. -/
def cursesStepCell (d : Dungeon) (sx sy c s : ℚ) (j : ℕ) : CellType :=
  cellAt d (cursesPosX sx c j) (cursesPosY sy s j)

/-- The four ways `Renderer3D.cast_ray`'s loop can exit, tagged by return
site: stepping out of bounds, entering a `WALL`, entering a
`STAIRS_DOWN`, or falling out of the loop at max depth. -/
inductive RayExit where
  | oob (dist : ℚ)
  | wallHit (dist : ℚ)
  | stairsHit (dist : ℚ)
  | floorMax
deriving DecidableEq, Repr

/-- The `while distance < self.max_depth` loop of `Renderer3D.cast_ray`,
entered having already done `k` steps (distance `k * 0.1`).  The loop
condition bounds the iteration count by 200, so the fuel case (returning
the max-depth exit) is unreachable for fuel above 200. -/
def cursesCastLoop (d : Dungeon) (sx sy c s : ℚ) : ℕ → ℕ → RayExit
  | _, 0 => .floorMax
  | k, fuel + 1 =>
    if (k : ℚ) * stepSize < maxDepth then
      if cursesStepOOB d sx sy c s (k + 1) then .oob ((k + 1 : ℕ) * stepSize)
      else
        match cursesStepCell d sx sy c s (k + 1) with
        | .WALL => .wallHit ((k + 1 : ℕ) * stepSize)
        | .STAIRS_DOWN => .stairsHit ((k + 1 : ℕ) * stepSize)
        | _ => cursesCastLoop d sx sy c s (k + 1) fuel
    else .floorMax

/-- `Renderer3D.cast_ray(dungeon, start_x, start_y, angle)` with the
bearing given by its components `(c, s) = (cos angle, sin angle)`:
returns `(distance, hit kind)`. -/
def cursesCastRay (d : Dungeon) (sx sy c s : ℚ) : ℚ × CellType :=
  match cursesCastLoop d sx sy c s 0 201 with
  | .oob q => (q, .WALL)
  | .wallHit q => (q, .WALL)
  | .stairsHit q => (q, .STAIRS_DOWN)
  | .floorMax => (maxDepth, .FLOOR)

/-- A step `j` at which the marching loop does not stop: in bounds and
sampling neither `WALL` nor `STAIRS_DOWN`. -/
def cursesNonStop (d : Dungeon) (sx sy c s : ℚ) (j : ℕ) : Prop :=
  ¬cursesStepOOB d sx sy c s j ∧
    cursesStepCell d sx sy c s j ≠ .WALL ∧
    cursesStepCell d sx sy c s j ≠ .STAIRS_DOWN

theorem stepCond_iff (k : ℕ) : (k : ℚ) * stepSize < maxDepth ↔ k < 200 := by
  rw [stepSize, maxDepth]
  rw [show (k : ℚ) * (1 / 10) = (k : ℚ) / 10 by ring]
  rw [div_lt_iff (by norm_num : (0 : ℚ) < 10)]
  constructor
  · intro h
    exact_mod_cast (by exact_mod_cast h : (k : ℚ) < 200)
  · intro h
    have : (k : ℚ) < 200 := by exact_mod_cast h
    linarith

/-- Complete characterization of the marching loop's exits: each blocking
exit happens at the first stopping step after `k` (within the 200-step
budget), and the max-depth exit means no step up to 200 stops. -/
theorem cursesCastLoop_char (d : Dungeon) (sx sy c s : ℚ) :
    ∀ fuel k, 200 ≤ k + fuel →
      (∀ q, cursesCastLoop d sx sy c s k fuel = .oob q →
        ∃ m, k < m ∧ m ≤ 200 ∧ q = (m : ℚ) * stepSize ∧
          cursesStepOOB d sx sy c s m ∧
          ∀ j, k < j → j < m → cursesNonStop d sx sy c s j) ∧
      (∀ q, cursesCastLoop d sx sy c s k fuel = .wallHit q →
        ∃ m, k < m ∧ m ≤ 200 ∧ q = (m : ℚ) * stepSize ∧
          ¬cursesStepOOB d sx sy c s m ∧
          cursesStepCell d sx sy c s m = .WALL ∧
          ∀ j, k < j → j < m → cursesNonStop d sx sy c s j) ∧
      (∀ q, cursesCastLoop d sx sy c s k fuel = .stairsHit q →
        ∃ m, k < m ∧ m ≤ 200 ∧ q = (m : ℚ) * stepSize ∧
          ¬cursesStepOOB d sx sy c s m ∧
          cursesStepCell d sx sy c s m = .STAIRS_DOWN ∧
          ∀ j, k < j → j < m → cursesNonStop d sx sy c s j) ∧
      (cursesCastLoop d sx sy c s k fuel = .floorMax →
        ∀ j, k < j → j ≤ 200 → cursesNonStop d sx sy c s j) := by
  intro fuel
  induction fuel with
  | zero =>
    intro k hk
    refine ⟨?_, ?_, ?_, ?_⟩ <;> simp only [cursesCastLoop]
    · intro q h; exact absurd h (by simp)
    · intro q h; exact absurd h (by simp)
    · intro q h; exact absurd h (by simp)
    · intro _ j hj hj200; omega
  | succ n ih =>
    intro k hk
    by_cases hcond : (k : ℚ) * stepSize < maxDepth
    · have hk200 : k < 200 := (stepCond_iff k).mp hcond
      by_cases hoob : cursesStepOOB d sx sy c s (k + 1)
      · have heq : cursesCastLoop d sx sy c s k (n + 1) =
            .oob ((k + 1 : ℕ) * stepSize) := by
          simp only [cursesCastLoop, if_pos hcond, if_pos hoob]
        refine ⟨?_, ?_, ?_, ?_⟩ <;> rw [heq]
        · intro q hq
          refine ⟨k + 1, by omega, by omega, ?_, hoob, by omega⟩
          cases hq; rfl
        · intro q hq; cases hq
        · intro q hq; cases hq
        · intro hq; cases hq
      · obtain ⟨iho, ihw, ihs, ihf⟩ := ih (k + 1) (by omega)
        cases hc : cursesStepCell d sx sy c s (k + 1) with
        | WALL =>
          have heq : cursesCastLoop d sx sy c s k (n + 1) =
              .wallHit ((k + 1 : ℕ) * stepSize) := by
            simp only [cursesCastLoop, if_pos hcond, if_neg hoob, hc]
          refine ⟨?_, ?_, ?_, ?_⟩ <;> rw [heq]
          · intro q hq; cases hq
          · intro q hq
            refine ⟨k + 1, by omega, by omega, ?_, hoob, hc, by omega⟩
            cases hq; rfl
          · intro q hq; cases hq
          · intro hq; cases hq
        | STAIRS_DOWN =>
          have heq : cursesCastLoop d sx sy c s k (n + 1) =
              .stairsHit ((k + 1 : ℕ) * stepSize) := by
            simp only [cursesCastLoop, if_pos hcond, if_neg hoob, hc]
          refine ⟨?_, ?_, ?_, ?_⟩ <;> rw [heq]
          · intro q hq; cases hq
          · intro q hq; cases hq
          · intro q hq
            refine ⟨k + 1, by omega, by omega, ?_, hoob, hc, by omega⟩
            cases hq; rfl
          · intro hq; cases hq
        | FLOOR | DOOR | EMPTY =>
          first
          | (have hns : cursesNonStop d sx sy c s (k + 1) :=
              ⟨hoob, by simp [hc], by simp [hc]⟩
             have heq : cursesCastLoop d sx sy c s k (n + 1) =
                cursesCastLoop d sx sy c s (k + 1) n := by
              simp only [cursesCastLoop, if_pos hcond, if_neg hoob, hc]
             refine ⟨?_, ?_, ?_, ?_⟩ <;> rw [heq]
             · intro q hq
               obtain ⟨m, hm1, hm2, hm3, hm4, hm5⟩ := iho q hq
               refine ⟨m, by omega, hm2, hm3, hm4, ?_⟩
               intro j hj1 hj2
               by_cases hj : j = k + 1
               · rw [hj]; exact hns
               · exact hm5 j (by omega) hj2
             · intro q hq
               obtain ⟨m, hm1, hm2, hm3, hm4, hm4h, hm5⟩ := ihw q hq
               refine ⟨m, by omega, hm2, hm3, hm4, hm4h, ?_⟩
               intro j hj1 hj2
               by_cases hj : j = k + 1
               · rw [hj]; exact hns
               · exact hm5 j (by omega) hj2
             · intro q hq
               obtain ⟨m, hm1, hm2, hm3, hm4, hm4h, hm5⟩ := ihs q hq
               refine ⟨m, by omega, hm2, hm3, hm4, hm4h, ?_⟩
               intro j hj1 hj2
               by_cases hj : j = k + 1
               · rw [hj]; exact hns
               · exact hm5 j (by omega) hj2
             · intro hq j hj1 hj2
               by_cases hj : j = k + 1
               · rw [hj]; exact hns
               · exact ihf hq j (by omega) hj2)
    · have heq : cursesCastLoop d sx sy c s k (n + 1) = .floorMax := by
        simp only [cursesCastLoop, if_neg hcond]
      have hk200 : ¬k < 200 := fun h => hcond ((stepCond_iff k).mpr h)
      refine ⟨?_, ?_, ?_, ?_⟩ <;> rw [heq]
      · intro q hq; cases hq
      · intro q hq; cases hq
      · intro q hq; cases hq
      · intro _ j hj1 hj2; omega

/-! ## Pixel-canvas backend ray caster (`PygameRenderer3D.cast_ray`)

Grid-traversal DDA: per-axis distances to the next grid line, always
advance along the nearer crossing, stop on `WALL` or out of bounds, then
report the perpendicular distance for the axis crossed last.  A zero
direction component makes that axis's per-cell step `float('inf')`. -/

/-- Extended rationals: `none` models IEEE `float('inf')` as produced by
`delta_dist_x = float('inf')` in the source. -/
abbrev ERat := Option ℚ

/-- The infinite per-axis step. -/
def eratInf : ERat := none

/-- A finite extended rational. -/
def eratFin (q : ℚ) : ERat := some q

/-- IEEE comparison `a < b` restricted to the values the DDA produces
(finite nonnegative reals and `+∞`): `∞ < x` is false, `x < ∞` is true
for finite `x`. -/
def eratLt : ERat → ERat → Bool
  | some a, some b => a < b
  | some _, none => true
  | none, _ => false

/-- Addition `side_dist += delta_dist` (`∞ + x = x + ∞ = ∞`). -/
def eratAdd : ERat → ERat → ERat
  | some a, some b => some (a + b)
  | _, _ => none

/-- Scaling `side_dist = factor * delta_dist`.  At every use with an
infinite `delta_dist` the factor is strictly positive (the source reaches
the `else` branch, whose factor is `map + 1.0 - start ∈ (0, 1]`), so
`q * ∞ = ∞` agrees with IEEE; `0 * ∞` never occurs. -/
def eratScale (q : ℚ) : ERat → ERat
  | some b => some (q * b)
  | none => none

/-- Per-axis step length `abs(1 / component)`, or `float('inf')` when the
bearing component is exactly zero (`PygameRenderer3D.cast_ray`). -/
def deltaDist (comp : ℚ) : ERat :=
  if comp = 0 then eratInf else eratFin |1 / comp|

/-- One `while not hit` DDA iteration per unit of fuel: advance the map
cell one step along the axis with the nearer grid-line crossing, then
test `out of bounds or WALL`; return the final cell and which axis was
stepped last (`false` = x-side, `true` = y-side).  The incoming `side`
variable of the source is dead (every iteration reassigns it before the
test), so it is not threaded; `none` is fuel exhaustion, an artifact of
the embedding (the source loop is unbounded). -/
def ddaLoop (d : Dungeon) (dX dY : ERat) (stepX stepY : ℤ) :
    ℕ → ℤ → ℤ → ERat → ERat → Option (ℤ × ℤ × Bool)
  | 0, _, _, _, _ => none
  | fuel + 1, mapX, mapY, sdX, sdY =>
    if eratLt sdX sdY then
      let mapX' := mapX + stepX
      if gridOOB d mapX' mapY ∨ cellAt d mapX' mapY = .WALL then
        some (mapX', mapY, false)
      else ddaLoop d dX dY stepX stepY fuel mapX' mapY (eratAdd sdX dX) sdY
    else
      let mapY' := mapY + stepY
      if gridOOB d mapX mapY' ∨ cellAt d mapX mapY' = .WALL then
        some (mapX, mapY', true)
      else ddaLoop d dX dY stepX stepY fuel mapX mapY' sdX (eratAdd sdY dY)

/-- The DDA loop as invoked by `PygameRenderer3D.cast_ray`: initial cell
`(int(start_x), int(start_y))`, step signs from the bearing components,
initial side distances scaled to the first grid line. -/
def pygameDdaHit (d : Dungeon) (sx sy c s : ℚ) (fuel : ℕ) :
    Option (ℤ × ℤ × Bool) :=
  let mapX := pyInt sx
  let mapY := pyInt sy
  let dX := deltaDist c
  let dY := deltaDist s
  let stepX : ℤ := if c < 0 then -1 else 1
  let stepY : ℤ := if s < 0 then -1 else 1
  let sdX := if c < 0 then eratScale (sx - mapX) dX
             else eratScale ((mapX : ℚ) + 1 - sx) dX
  let sdY := if s < 0 then eratScale (sy - mapY) dY
             else eratScale ((mapY : ℚ) + 1 - sy) dY
  ddaLoop d dX dY stepX stepY fuel mapX mapY sdX sdY

/-- Result of the pixel-canvas cast.  Python raises `ZeroDivisionError` on
float division by zero, so the perpendicular-distance divisions are
modelled as the observable outcome `divZero`; `noFuel` is the embedding's
fuel artifact. -/
inductive CastOutcome where
  | ok (dist : ℚ) (hitVertical : Bool)
  | divZero
  | noFuel
deriving DecidableEq, Repr

/-- `PygameRenderer3D.cast_ray(dungeon, start_x, start_y, angle)` with the
bearing given by its components: returns `(abs(perp_wall_dist), side == 0)`. -/
def pygameCastRay (d : Dungeon) (sx sy c s : ℚ) (fuel : ℕ) : CastOutcome :=
  match pygameDdaHit d sx sy c s fuel with
  | none => .noFuel
  | some (mX, mY, side) =>
    if side = false then
      if c = 0 then .divZero
      else .ok |((mX : ℚ) - sx + (1 - (if c < 0 then (-1 : ℤ) else 1)) / 2) / c| true
    else
      if s = 0 then .divZero
      else .ok |((mY : ℚ) - sy + (1 - (if s < 0 then (-1 : ℤ) else 1)) / 2) / s| false

/-- Any DDA exit is at a cell that is out of bounds or a `WALL`; no other
cell kind (in particular `STAIRS_DOWN`) stops the pixel-canvas ray. -/
theorem ddaLoop_exit_wall (d : Dungeon) (dX dY : ERat) (stepX stepY : ℤ) :
    ∀ fuel mapX mapY sdX sdY mX mY side,
      ddaLoop d dX dY stepX stepY fuel mapX mapY sdX sdY = some (mX, mY, side) →
      gridOOB d mX mY ∨ cellAt d mX mY = .WALL := by
  intro fuel
  induction fuel with
  | zero => intro mapX mapY sdX sdY mX mY side h; cases h
  | succ n ih =>
    intro mapX mapY sdX sdY mX mY side h
    rw [ddaLoop] at h
    by_cases hlt : eratLt sdX sdY
    · rw [if_pos hlt] at h
      by_cases hhit : gridOOB d (mapX + stepX) mapY ∨ cellAt d (mapX + stepX) mapY = .WALL
      · rw [if_pos hhit] at h
        cases h
        exact hhit
      · rw [if_neg hhit] at h
        exact ih _ _ _ _ _ _ _ h
    · rw [if_neg hlt] at h
      by_cases hhit : gridOOB d mapX (mapY + stepY) ∨ cellAt d mapX (mapY + stepY) = .WALL
      · rw [if_pos hhit] at h
        cases h
        exact hhit
      · rw [if_neg hhit] at h
        exact ih _ _ _ _ _ _ _ h

/-- With an infinite x-step the x-axis is never advanced: every exit is a
y-side exit.  (`∞ < y` is false for every `y`.) -/
theorem ddaLoop_inf_x_side (d : Dungeon) (dY : ERat) (stepX stepY : ℤ) :
    ∀ fuel mapX mapY sdY mX mY side,
      ddaLoop d eratInf dY stepX stepY fuel mapX mapY eratInf sdY =
        some (mX, mY, side) → side = true := by
  intro fuel
  induction fuel with
  | zero => intro mapX mapY sdY mX mY side h; cases h
  | succ n ih =>
    intro mapX mapY sdY mX mY side h
    rw [ddaLoop] at h
    have hlt : eratLt eratInf sdY = false := by rfl
    rw [hlt] at h
    simp only [Bool.false_eq_true, if_false] at h
    by_cases hhit : gridOOB d mapX (mapY + stepY) ∨ cellAt d mapX (mapY + stepY) = .WALL
    · rw [if_pos hhit] at h
      cases h; rfl
    · rw [if_neg hhit] at h
      have : eratAdd sdY dY = eratAdd sdY dY := rfl
      exact ih _ _ _ _ _ _ h

/-- With an infinite y-step and a finite x side distance the y-axis is
never advanced: every exit is an x-side exit. -/
theorem ddaLoop_inf_y_side (d : Dungeon) (delta : ℚ) (stepX stepY : ℤ) :
    ∀ fuel mapX mapY w mX mY side,
      ddaLoop d (eratFin delta) eratInf stepX stepY fuel mapX mapY
        (eratFin w) eratInf = some (mX, mY, side) → side = false := by
  intro fuel
  induction fuel with
  | zero => intro mapX mapY w mX mY side h; cases h
  | succ n ih =>
    intro mapX mapY w mX mY side h
    rw [ddaLoop] at h
    have hlt : eratLt (eratFin w) eratInf = true := by rfl
    rw [hlt, if_pos rfl] at h
    by_cases hhit : gridOOB d (mapX + stepX) mapY ∨ cellAt d (mapX + stepX) mapY = .WALL
    · rw [if_pos hhit] at h
      cases h; rfl
    · rw [if_neg hhit] at h
      exact ih _ _ (w + delta) _ _ _ h

/-- Termination measure for the DDA loop: along each axis the step sign is
fixed, so the remaining in-bounds cells in the travel direction bound the
iteration count. -/
def ddaMeasure (d : Dungeon) (stepX stepY mapX mapY : ℤ) : ℕ :=
  (if stepX = 1 then d.width - mapX.toNat else mapX.toNat + 1) +
    (if stepY = 1 then d.height - mapY.toNat else mapY.toNat + 1)

/-- From an in-bounds cell, the DDA loop exits within `ddaMeasure` many
iterations: each iteration moves the cell exactly one step along one axis
toward that axis's exit boundary. -/
theorem ddaLoop_terminates (d : Dungeon) (dX dY : ERat) (stepX stepY : ℤ)
    (hsx : stepX = 1 ∨ stepX = -1) (hsy : stepY = 1 ∨ stepY = -1) :
    ∀ fuel mapX mapY sdX sdY,
      0 ≤ mapX → mapX < (d.width : ℤ) → 0 ≤ mapY → mapY < (d.height : ℤ) →
      ddaMeasure d stepX stepY mapX mapY ≤ fuel →
      ddaLoop d dX dY stepX stepY fuel mapX mapY sdX sdY ≠ none := by
  intro fuel
  induction fuel with
  | zero =>
    intro mapX mapY sdX sdY hx0 hxw hy0 hyh hm
    exfalso
    rw [ddaMeasure] at hm
    rcases hsx with h1 | h1 <;> rcases hsy with h2 | h2 <;> rw [h1, h2] at hm <;>
      norm_num at hm <;> omega
  | succ n ih =>
    intro mapX mapY sdX sdY hx0 hxw hy0 hyh hm
    rw [ddaLoop]
    by_cases hlt : eratLt sdX sdY
    · rw [if_pos hlt]
      by_cases hhit : gridOOB d (mapX + stepX) mapY ∨ cellAt d (mapX + stepX) mapY = .WALL
      · rw [if_pos hhit]; simp
      · rw [if_neg hhit]
        have hinb : ¬gridOOB d (mapX + stepX) mapY := fun h => hhit (Or.inl h)
        rw [gridOOB] at hinb
        push_neg at hinb
        obtain ⟨ha, hb, _, _⟩ := hinb
        refine ih (mapX + stepX) mapY (eratAdd sdX dX) sdY ha hb hy0 hyh ?_
        rw [ddaMeasure] at hm ⊢
        rcases hsx with h1 | h1 <;> rcases hsy with h2 | h2 <;>
          rw [h1, h2] at hm ⊢ <;> norm_num at hm ⊢ <;> omega
    · rw [if_neg hlt]
      by_cases hhit : gridOOB d mapX (mapY + stepY) ∨ cellAt d mapX (mapY + stepY) = .WALL
      · rw [if_pos hhit]; simp
      · rw [if_neg hhit]
        have hinb : ¬gridOOB d mapX (mapY + stepY) := fun h => hhit (Or.inl h)
        rw [gridOOB] at hinb
        push_neg at hinb
        obtain ⟨_, _, hc', hd'⟩ := hinb
        refine ih mapX (mapY + stepY) sdX (eratAdd sdY dY) hx0 hxw hc' hd' ?_
        rw [ddaMeasure] at hm ⊢
        rcases hsx with h1 | h1 <;> rcases hsy with h2 | h2 <;>
          rw [h1, h2] at hm ⊢ <;> norm_num at hm ⊢ <;> omega

/-! ## Sprite placement

Pixel-canvas backend: `render_entities_3d` collects live non-player
entities and items within max depth, sorts them farthest first, and calls
`render_sprite` per object; `render_sprite` culls by field of view and
minimum apparent size and otherwise draws a screen rectangle.  The
bearing of a sprite relative to the viewer (the source's normalized
`sprite_angle ∈ (-π, π]`) is passed in directly; the source computes it
as `atan2(dy, dx) - player_angle` followed by a normalization loop that
is the identity on the normalized range.  Field of view and viewport
dimensions are the configuration constants (`fov = π/3` in the source). -/

/-- Camera-space x of a screen column (`camera_x = 2 * x / self.width - 1`
in `render_scene`); the column's ray bearing relative to the viewer is
`atan(camera_x * tan(fov / 2))`, which is `0` at `camera_x = 0`. -/
def pygameCameraX (width x : ℕ) : ℚ := 2 * x / width - 1

/-- Horizontal screen coordinate assigned to a sprite at the given
relative bearing: `int((sprite_angle / (fov / 2) + 1) * width / 2)`. -/
def pygameSpriteScreenX (fov : ℚ) (width : ℕ) (bearing : ℚ) : ℤ :=
  pyInt ((bearing / (fov / 2) + 1) * width / 2)

/-- Screen-space bounds of a drawn sprite:
`(draw_start_x, draw_start_y, draw_end_x, draw_end_y)`. -/
structure SpriteRect where
  x0 : ℤ
  y0 : ℤ
  x1 : ℤ
  y1 : ℤ
deriving DecidableEq, Repr

/-- `PygameRenderer3D.render_sprite`: returns the drawn rectangle, or
`none` when the sprite is culled (outside the field of view, or apparent
height below 4 pixels).  There is no occlusion test in this routine. -/
def pygameRenderSprite (fov : ℚ) (width height : ℤ) (distance bearing : ℚ)
    (isEntity : Bool) (etype : EntityType) : Option SpriteRect :=
  if |bearing| > fov / 2 then none
  else
    let screenX := pyInt ((bearing / (fov / 2) + 1) * width / 2)
    let spriteHeight := if 0 < distance then pyInt ((height : ℚ) / distance) else height
    let spriteWidth := spriteHeight
    if spriteHeight < 4 then none
    else
      let startY := max 0 ((height - spriteHeight).fdiv 2)
      let endY := min height ((height + spriteHeight).fdiv 2)
      let startX := max 0 (screenX - spriteWidth.fdiv 2)
      let endX := min width (screenX + spriteWidth.fdiv 2)
      if isEntity ∧ etype = .BOSS then
        let bossHeight := pyInt ((spriteHeight : ℚ) * (3 / 2))
        some ⟨startX, max 0 ((height - bossHeight).fdiv 2),
              endX, min height ((height + bossHeight).fdiv 2)⟩
      else some ⟨startX, startY, endX, endY⟩

/-- A sprite candidate of `render_entities_3d`, carrying the squared
Euclidean distance `dSq = dx² + dy²`.  The source stores
`distance = sqrt(dSq)` and filters/sorts on it; since `sqrt` is strictly
monotone on nonnegatives, filtering by `distance < max_depth` is
`dSq < max_depth²` and sorting by `distance` descending is sorting by
`dSq` descending. -/
structure SpriteCand where
  isEntity : Bool
  etype : EntityType
  dSq : ℚ
  dx : ℚ
  dy : ℚ
deriving DecidableEq, Repr

/-- Collection pass of `render_entities_3d`: live non-player entities at
`(pos + 0.5) - player`, then all items, each kept when within max depth. -/
def collectSprites (ents : List Entity) (items : List MapItem)
    (px py : ℚ) : List SpriteCand :=
  (ents.filterMap fun e =>
    if 0 < e.hp ∧ e.etype ≠ .PLAYER then
      let dx := (e.posX : ℚ) + 1 / 2 - px
      let dy := (e.posY : ℚ) + 1 / 2 - py
      if dx * dx + dy * dy < maxDepth * maxDepth then
        some ⟨true, e.etype, dx * dx + dy * dy, dx, dy⟩
      else none
    else none) ++
  (items.filterMap fun it =>
    let dx := (it.posX : ℚ) + 1 / 2 - px
    let dy := (it.posY : ℚ) + 1 / 2 - py
    if dx * dx + dy * dy < maxDepth * maxDepth then
      some ⟨false, it.etype, dx * dx + dy * dy, dx, dy⟩
    else none)

/-- Comparison of the depth sort: `a` may precede `b` when `a` is at
least as far. -/
def spriteFarther (a b : SpriteCand) : Bool := decide (b.dSq ≤ a.dSq)

/-- The order in which `render_entities_3d` emits sprites to
`render_sprite`: the collected candidates sorted farthest first
(`entities_to_render.sort(key=..., reverse=True)`; Python's sort and
`List.mergeSort` are both stable, so the orders agree exactly). -/
def renderQueue (ents : List Entity) (items : List MapItem)
    (px py : ℚ) : List SpriteCand :=
  (collectSprites ents items px py).mergeSort spriteFarther

/-! Character-cell backend: `render_entities_on_column` walks the column's
ray one whole tile at a time up to the column's wall distance and draws
the first entity (then item) found, recording its tile step count as the
sprite distance. -/

/-- A sprite drawn on a character-cell column: its tile distance (the
step index at which it was found) and its glyph. -/
structure ColumnSprite where
  step : ℕ
  glyph : Char
deriving DecidableEq, Repr

/-- Horizontal center column assigned to an object at the given bearing
relative to the viewer:
`self.width * (ray_angle - player_angle + fov/2) / fov`. -/
def cursesEntityCenterColumn (fov : ℚ) (width : ℕ) (bearing : ℚ) : ℚ :=
  width * (bearing + fov / 2) / fov

/-- One step of `render_entities_on_column`: at tile
`(int(px + cos*step), int(py + sin*step))`, the first live non-player
entity whose sprite width covers column `x` is drawn; otherwise the first
item there likewise. -/
def cursesSpriteAtStep (x : ℤ) (ents : List Entity) (items : List MapItem)
    (px py c s bearing fov : ℚ) (width : ℕ) (step : ℕ) : Option ColumnSprite :=
  let gx := pyInt (px + c * step)
  let gy := pyInt (py + s * step)
  let center := cursesEntityCenterColumn fov width bearing
  match ents.findSome? (fun e =>
    if 0 < e.hp ∧ e.etype ≠ .PLAYER ∧ e.posX = gx ∧ e.posY = gy ∧
        |(x : ℚ) - center| ≤ (((max 1 (6 - (step : ℤ))).fdiv 2 : ℤ) : ℚ) then
      some (ColumnSprite.mk step e.etype.value)
    else none) with
  | some found => some found
  | none =>
    items.findSome? (fun it =>
      if it.posX = gx ∧ it.posY = gy ∧
          |(x : ℚ) - center| ≤ (((max 1 (4 - (step : ℤ))).fdiv 2 : ℤ) : ℚ) then
        some (ColumnSprite.mk step it.etype.value)
      else none)

/-- `Renderer3D.render_entities_on_column(x, ..., ray_angle, distance)`:
steps `1 .. int(distance)` along the ray (`distance` is the wall distance
already cast for this column) and draws the first object found. -/
def cursesColumnSprite (x : ℤ) (ents : List Entity) (items : List MapItem)
    (px py c s bearing dist fov : ℚ) (width : ℕ) : Option ColumnSprite :=
  (List.range' 1 (pyInt dist).toNat).findSome?
    (cursesSpriteAtStep x ents items px py c s bearing fov width)

/-! ## Minimap (`Renderer3D.render_minimap` / `get_direction_char`)

Heading angles are measured in units of π: a heading of `t` stands for
`t·π` radians, so the source's
`int(((angle % 2π) + π/8) / (π/4)) % 8` is `int(4·(t % 2) + 1/2) % 8`,
exactly representable over `ℚ`. -/

/-- The 8 heading glyphs of `get_direction_char`. -/
def minimapDirections : List Char := ['→', '↘', '↓', '↙', '←', '↖', '↑', '↗']

/-- `Renderer3D.get_direction_char` for heading `t·π` radians. -/
def getDirectionChar (t : ℚ) : Char :=
  let t2 := pyMod t 2
  let idx := pyInt (4 * t2 + 1 / 2) % 8
  minimapDirections.getD idx.toNat ' '

/-- `map_size = 12` of `render_minimap`. -/
def minimapSize : ℕ := 12

/-- World coordinate sampled for minimap offset `m`:
`int(player - map_size//2 + m)`. -/
def minimapWorld (p : ℚ) (m : ℕ) : ℤ :=
  pyInt (p - ((minimapSize / 2 : ℕ) : ℚ) + m)

/-- Marker drawn for world cell `(wx, wy)`: blank outside the grid;
otherwise the cell's base marker (wall/stairs/floor), overridden by a
hostile or shopkeeper entity there, overridden in turn by an item there.
Colors are presentation only and are not modelled. -/
def minimapCellChar (d : Dungeon) (ents : List Entity) (items : List MapItem)
    (wx wy : ℤ) : Char :=
  if ¬gridOOB d wx wy then
    let base : Char :=
      match cellAt d wx wy with
      | .WALL => '█'
      | .STAIRS_DOWN => '▼'
      | _ => '·'
    let withEnts := ents.foldl (fun ch e =>
      if e.posX = wx ∧ e.posY = wy ∧ 0 < e.hp then
        if e.etype = .GOBLIN ∨ e.etype = .ORC then 'E'
        else if e.etype = .SHOPKEEPER then 'S'
        else ch
      else ch) base
    items.foldl (fun ch it =>
      if it.posX = wx ∧ it.posY = wy then
        if it.etype = .GOLD then '$' else '?'
      else ch) withEnts
  else ' '

/-- The character shown at minimap offset `(mx, my)` (each in
`0 .. map_size - 1`): the sampled world cell's marker, except that the
center cell is overdrawn last with the viewer's heading glyph. -/
def renderMinimapCell (d : Dungeon) (ents : List Entity) (items : List MapItem)
    (px py t : ℚ) (mx my : ℕ) : Char :=
  if mx = minimapSize / 2 ∧ my = minimapSize / 2 then getDirectionChar t
  else minimapCellChar d ents items (minimapWorld px mx) (minimapWorld py my)

/-- Modelled from the spec's words, for comparison with the code's
minimap: a `windowSize×windowSize` orthographic window of the grid
centered on the viewer's integer position — the cell at window offset
`m` is grid cell `int(player) - windowSize/2 + m` — with the viewer cell
marked with the heading glyph. -/
def minimapSpecCell (d : Dungeon) (ents : List Entity) (items : List MapItem)
    (px py t : ℚ) (mx my : ℕ) : Char :=
  if mx = minimapSize / 2 ∧ my = minimapSize / 2 then getDirectionChar t
  else minimapCellChar d ents items
    (pyInt px - ((minimapSize / 2 : ℕ) : ℤ) + mx)
    (pyInt py - ((minimapSize / 2 : ℕ) : ℤ) + my)

/-! ## Concrete grids used by the scenario theorems -/

/-- The spec's concrete scenario grid: 5×5, all `FLOOR` except a `WALL`
border. -/
def grid5 : Dungeon :=
  ⟨5, 5, fun x y => if x = 0 ∨ x = 4 ∨ y = 0 ∨ y = 4 then .WALL else .FLOOR⟩

/-- A 2×2 all-`FLOOR` grid (rays leave it immediately). -/
def grid2 : Dungeon := ⟨2, 2, fun _ _ => .FLOOR⟩

/-- A 21-cell open corridor with no walls at all. -/
def corridor21 : Dungeon := ⟨21, 1, fun _ _ => .FLOOR⟩

/-- A 4-cell corridor with a `STAIRS_DOWN` cell in front of a `WALL`. -/
def gridStairs : Dungeon :=
  ⟨4, 1, fun x _ => if x = 1 then .STAIRS_DOWN else if x = 3 then .WALL else .FLOOR⟩

/-- An 8×8 grid whose column 0 is `WALL` and the rest `FLOOR`. -/
def gridC8 : Dungeon := ⟨8, 8, fun x _ => if x = 0 then .WALL else .FLOOR⟩

/-! ## Claim theorems -/

set_option maxRecDepth 8000
set_option maxHeartbeats 2000000

theorem stepDist_bounds {m : ℕ} (h1 : 0 < m) (h2 : m ≤ 200) :
    0 < (m : ℚ) * stepSize ∧ (m : ℚ) * stepSize ≤ maxDepth := by
  rw [stepSize, maxDepth]
  have ha : (1 : ℚ) ≤ (m : ℚ) := by exact_mod_cast h1
  have hb : (m : ℚ) ≤ 200 := by exact_mod_cast h2
  constructor <;> linarith

/-- A non-max-depth exit of the marching loop is stable under adding
fuel, so concrete runs can be evaluated with just enough fuel and lifted
to the 201 used by `cursesCastRay`. -/
theorem cursesCastLoop_fuel_ext (d : Dungeon) (sx sy c s : ℚ) :
    ∀ f1 f2 k e, e ≠ RayExit.floorMax →
      cursesCastLoop d sx sy c s k f1 = e → f1 ≤ f2 →
      cursesCastLoop d sx sy c s k f2 = e := by
  intro f1
  induction f1 with
  | zero =>
    intro f2 k e he h _
    rw [← h] at he
    simp [cursesCastLoop] at he
  | succ n ih =>
    intro f2 k e he h hle
    obtain ⟨m, rfl⟩ : ∃ m, f2 = m + 1 := ⟨f2 - 1, by omega⟩
    by_cases hcond : (k : ℚ) * stepSize < maxDepth
    · by_cases hoob : cursesStepOOB d sx sy c s (k + 1)
      · rw [cursesCastLoop, if_pos hcond, if_pos hoob] at h ⊢
        exact h
      · cases hc : cursesStepCell d sx sy c s (k + 1) with
        | WALL =>
          rw [cursesCastLoop, if_pos hcond, if_neg hoob] at h ⊢
          rw [hc] at h ⊢
          exact h
        | STAIRS_DOWN =>
          rw [cursesCastLoop, if_pos hcond, if_neg hoob] at h ⊢
          rw [hc] at h ⊢
          exact h
        | FLOOR | DOOR | EMPTY =>
          first
          | (rw [cursesCastLoop, if_pos hcond, if_neg hoob] at h ⊢
             rw [hc] at h ⊢
             exact ih m (k + 1) e he h (by omega))
    · rw [cursesCastLoop, if_neg hcond] at h
      exact absurd h.symm he

theorem grid5_loop_eval :
    cursesCastLoop grid5 (5/2) (5/2) 1 0 0 201 = .wallHit (3/2) := by
  refine cursesCastLoop_fuel_ext grid5 (5/2) (5/2) 1 0 16 201 0 _ (by simp) ?_ (by omega)
  norm_num [cursesCastLoop, cursesStepOOB, cursesStepCell, cursesPosX,
            cursesPosY, gridOOB, cellAt, pyInt, grid5, stepSize, maxDepth]

theorem grid2_loop_eval :
    cursesCastLoop grid2 (3/2) (1/2) 1 0 0 201 = .oob (1/2) := by
  refine cursesCastLoop_fuel_ext grid2 (3/2) (1/2) 1 0 6 201 0 _ (by simp) ?_ (by omega)
  norm_num [cursesCastLoop, cursesStepOOB, cursesStepCell, cursesPosX,
            cursesPosY, gridOOB, cellAt, pyInt, grid2, stepSize, maxDepth]

theorem gridStairs_loop_eval :
    cursesCastLoop gridStairs (1/2) (1/2) 1 0 0 201 = .stairsHit (1/2) := by
  refine cursesCastLoop_fuel_ext gridStairs (1/2) (1/2) 1 0 6 201 0 _ (by simp) ?_ (by omega)
  norm_num [cursesCastLoop, cursesStepOOB, cursesStepCell, cursesPosX,
            cursesPosY, gridOOB, cellAt, pyInt, gridStairs, stepSize, maxDepth]

/-- Claim C5: on the 5×5 bordered grid, a viewer at (2.5, 2.5) with
heading 0 (direction components `(1, 0)`) gets a `WALL` hit at distance
exactly 3/2 (hence within any epsilon of 1.5) from the character-cell
cast, and distance exactly 3/2 with a vertical-face hit from the
pixel-canvas cast (whose hit cell (4, 2) is the `WALL` at x = 4). -/
theorem c5_concrete_scenario :
    cursesCastRay grid5 (5/2) (5/2) 1 0 = (3/2, CellType.WALL) ∧
    pygameCastRay grid5 (5/2) (5/2) 1 0 5 = .ok (3/2) true := by
  constructor
  · rw [cursesCastRay, grid5_loop_eval]
  · norm_num [pygameCastRay, pygameDdaHit, ddaLoop, deltaDist, eratLt, eratAdd, eratScale,
              eratInf, eratFin, gridOOB, cellAt, grid5, pyInt,
              show (CellType.FLOOR = CellType.WALL) = False by simp]

/-- Claim C2 (amended): the character-cell cast either stops with a
blocking hit kind (`WALL` or `STAIRS_DOWN`) at a strictly positive
distance at most the configured max depth, or returns exactly the max
depth with kind `FLOOR`; its returned distance never exceeds the max
depth.  (The pixel-canvas cast has no depth cap — see the
counterexample.) -/
theorem c2_curses_depth_capped (d : Dungeon) (sx sy c s : ℚ) :
    (cursesCastRay d sx sy c s).1 ≤ maxDepth ∧
    (((cursesCastRay d sx sy c s).2 = CellType.WALL ∨
        (cursesCastRay d sx sy c s).2 = CellType.STAIRS_DOWN) ∧
       0 < (cursesCastRay d sx sy c s).1 ∨
      (cursesCastRay d sx sy c s).1 = maxDepth ∧
        (cursesCastRay d sx sy c s).2 = CellType.FLOOR) := by
  obtain ⟨ho, hw, hs, hf⟩ := cursesCastLoop_char d sx sy c s 201 0 (by omega)
  rw [cursesCastRay]
  cases hloop : cursesCastLoop d sx sy c s 0 201 with
  | oob q =>
    obtain ⟨m, hm1, hm2, hm3, -, -⟩ := ho q hloop
    obtain ⟨hp, hle⟩ := stepDist_bounds hm1 hm2
    rw [hm3]
    exact ⟨hle, Or.inl ⟨Or.inl rfl, hp⟩⟩
  | wallHit q =>
    obtain ⟨m, hm1, hm2, hm3, -, -, -⟩ := hw q hloop
    obtain ⟨hp, hle⟩ := stepDist_bounds hm1 hm2
    rw [hm3]
    exact ⟨hle, Or.inl ⟨Or.inl rfl, hp⟩⟩
  | stairsHit q =>
    obtain ⟨m, hm1, hm2, hm3, -, -, -⟩ := hs q hloop
    obtain ⟨hp, hle⟩ := stepDist_bounds hm1 hm2
    rw [hm3]
    exact ⟨hle, Or.inl ⟨Or.inr rfl, hp⟩⟩
  | floorMax => exact ⟨le_refl _, Or.inr ⟨rfl, rfl⟩⟩

/-- Claim C2 is false for the pixel-canvas cast: in a 21-cell open
corridor the DDA runs to the boundary and returns distance 41/2 = 20.5,
which exceeds the configured max depth 20 (and the hit kind is an
out-of-bounds wall, not `FLOOR`). -/
theorem c2_pygame_depth_uncapped_cex :
    pygameCastRay corridor21 (1/2) (1/2) 1 0 22 = .ok (41/2) true ∧
    ¬((41 : ℚ) / 2 ≤ maxDepth) := by
  constructor
  · norm_num [pygameCastRay, pygameDdaHit, ddaLoop, deltaDist, eratLt, eratAdd, eratScale,
              eratInf, eratFin, gridOOB, cellAt, corridor21, pyInt,
              show (CellType.FLOOR = CellType.WALL) = False by simp]
  · norm_num [maxDepth]

/-- Claim C3 (amended): when the marching loop steps out of the grid
bounds, the character-cell cast returns a `WALL` hit at the distance
accumulated at that step — which is strictly positive, not 0 — and, the
embedding being total, no exception is raised. -/
theorem c3_oob_step_wall_hit (d : Dungeon) (sx sy c s q : ℚ)
    (h : cursesCastLoop d sx sy c s 0 201 = .oob q) :
    cursesCastRay d sx sy c s = (q, CellType.WALL) ∧ 0 < q ∧ q ≤ maxDepth := by
  obtain ⟨ho, -, -, -⟩ := cursesCastLoop_char d sx sy c s 201 0 (by omega)
  obtain ⟨m, hm1, hm2, hm3, -, -⟩ := ho q h
  obtain ⟨hp, hle⟩ := stepDist_bounds hm1 hm2
  refine ⟨?_, ?_, ?_⟩
  · rw [cursesCastRay, h]
  · rw [hm3]; exact hp
  · rw [hm3]; exact hle

/-- Witness for claim C3 (amended): on the 2×2 all-floor grid from
(1.5, 0.5) heading +x, the loop leaves the grid and the cast returns a
`WALL` hit at the accumulated distance 1/2. -/
theorem c3_oob_witness :
    cursesCastLoop grid2 (3/2) (1/2) 1 0 0 201 = .oob (1/2) ∧
    (cursesCastRay grid2 (3/2) (1/2) 1 0 = (1/2, CellType.WALL) ∧
      0 < (1/2 : ℚ) ∧ (1/2 : ℚ) ≤ maxDepth) :=
  ⟨grid2_loop_eval, c3_oob_step_wall_hit grid2 (3/2) (1/2) 1 0 (1/2) grid2_loop_eval⟩

/-- Claim C3 as stated is false: both backends return the out-of-bounds
`WALL` hit at the distance travelled (1/2 here), not at distance 0. -/
theorem c3_oob_distance_not_zero_cex :
    cursesCastLoop grid2 (3/2) (1/2) 1 0 0 201 = .oob (1/2) ∧
    cursesCastRay grid2 (3/2) (1/2) 1 0 = (1/2, CellType.WALL) ∧
    pygameCastRay grid2 (3/2) (1/2) 1 0 3 = .ok (1/2) true ∧
    (1/2 : ℚ) ≠ 0 := by
  refine ⟨grid2_loop_eval, by rw [cursesCastRay, grid2_loop_eval], ?_, by norm_num⟩
  norm_num [pygameCastRay, pygameDdaHit, ddaLoop, deltaDist, eratLt, eratAdd, eratScale,
            eratInf, eratFin, gridOOB, cellAt, grid2, pyInt,
            show (CellType.FLOOR = CellType.WALL) = False by simp]

/-- Claim C4 (amended): the character-cell cast stops at the first
sampled cell of kind `WALL` or `STAIRS_DOWN` and reports that cell's
kind — every earlier sampled cell is in bounds and neither kind (`FLOOR`,
`DOOR` and `EMPTY` never stop the ray); the pixel-canvas DDA stops only
at an out-of-bounds cell or a `WALL` — a `STAIRS_DOWN` cell does not
stop it (see the counterexample). -/
theorem c4_blocking_kinds_stop (d : Dungeon) (sx sy c s : ℚ) :
    (∀ q, cursesCastLoop d sx sy c s 0 201 = .wallHit q →
      cursesCastRay d sx sy c s = (q, CellType.WALL) ∧
      ∃ m : ℕ, 1 ≤ m ∧ m ≤ 200 ∧ q = (m : ℚ) * stepSize ∧
        ¬cursesStepOOB d sx sy c s m ∧
        cursesStepCell d sx sy c s m = CellType.WALL ∧
        ∀ j, 1 ≤ j → j < m → cursesNonStop d sx sy c s j) ∧
    (∀ q, cursesCastLoop d sx sy c s 0 201 = .stairsHit q →
      cursesCastRay d sx sy c s = (q, CellType.STAIRS_DOWN) ∧
      ∃ m : ℕ, 1 ≤ m ∧ m ≤ 200 ∧ q = (m : ℚ) * stepSize ∧
        ¬cursesStepOOB d sx sy c s m ∧
        cursesStepCell d sx sy c s m = CellType.STAIRS_DOWN ∧
        ∀ j, 1 ≤ j → j < m → cursesNonStop d sx sy c s j) ∧
    (∀ fuel mX mY side, pygameDdaHit d sx sy c s fuel = some (mX, mY, side) →
      gridOOB d mX mY ∨ cellAt d mX mY = CellType.WALL) := by
  obtain ⟨-, hw, hs, -⟩ := cursesCastLoop_char d sx sy c s 201 0 (by omega)
  refine ⟨?_, ?_, ?_⟩
  · intro q hq
    obtain ⟨m, hm1, hm2, hm3, hm4, hm5, hm6⟩ := hw q hq
    exact ⟨by rw [cursesCastRay, hq], m, hm1, hm2, hm3, hm4, hm5, hm6⟩
  · intro q hq
    obtain ⟨m, hm1, hm2, hm3, hm4, hm5, hm6⟩ := hs q hq
    exact ⟨by rw [cursesCastRay, hq], m, hm1, hm2, hm3, hm4, hm5, hm6⟩
  · intro fuel mX mY side h
    rw [pygameDdaHit] at h
    exact ddaLoop_exit_wall d _ _ _ _ fuel _ _ _ _ mX mY side h

/-- Witness for claim C4 (amended): in the stairs corridor the
character-cell cast stops at the `STAIRS_DOWN` cell at distance 1/2 and
reports kind `STAIRS_DOWN`. -/
theorem c4_witness :
    cursesCastLoop gridStairs (1/2) (1/2) 1 0 0 201 = .stairsHit (1/2) ∧
    (cursesCastRay gridStairs (1/2) (1/2) 1 0 = (1/2, CellType.STAIRS_DOWN) ∧
      ∃ m : ℕ, 1 ≤ m ∧ m ≤ 200 ∧ (1/2 : ℚ) = (m : ℚ) * stepSize ∧
        ¬cursesStepOOB gridStairs (1/2) (1/2) 1 0 m ∧
        cursesStepCell gridStairs (1/2) (1/2) 1 0 m = CellType.STAIRS_DOWN ∧
        ∀ j, 1 ≤ j → j < m → cursesNonStop gridStairs (1/2) (1/2) 1 0 j) :=
  ⟨gridStairs_loop_eval,
    (c4_blocking_kinds_stop gridStairs (1/2) (1/2) 1 0).2.1 (1/2) gridStairs_loop_eval⟩

/-- Claim C4 is false for the pixel-canvas cast: in the stairs corridor
the ray enters the `STAIRS_DOWN` cell (1, 0) but does not stop there —
it stops at the `WALL` cell (3, 0), at distance 5/2. -/
theorem c4_pygame_stairs_not_blocking_cex :
    cellAt gridStairs 1 0 = CellType.STAIRS_DOWN ∧
    pygameDdaHit gridStairs (1/2) (1/2) 1 0 5 = some (3, 0, false) ∧
    cellAt gridStairs 3 0 = CellType.WALL ∧
    ((3 : ℤ), (0 : ℤ)) ≠ ((1 : ℤ), (0 : ℤ)) ∧
    pygameCastRay gridStairs (1/2) (1/2) 1 0 5 = .ok (5/2) true := by
  have hdda : pygameDdaHit gridStairs (1/2) (1/2) 1 0 5 = some (3, 0, false) := by
    norm_num [pygameDdaHit, ddaLoop, deltaDist, eratLt, eratAdd, eratScale,
              eratInf, eratFin, gridOOB, cellAt, gridStairs, pyInt,
              show (CellType.FLOOR = CellType.WALL) = False by simp,
              show (CellType.STAIRS_DOWN = CellType.WALL) = False by simp]
  refine ⟨by norm_num [cellAt, gridStairs], hdda, by norm_num [cellAt, gridStairs],
    by decide, ?_⟩
  rw [pygameCastRay, hdda]
  norm_num


/-- Claim C9: a zero bearing component gets the infinite per-axis step
(`deltaDist 0 = ∞`), and for every origin and bearing with components not
both zero (`cos` and `sin` never vanish together) the pixel-canvas cast
never performs a division by zero: the final perpendicular-distance
division always divides by the nonzero component of the axis crossed
last. -/
theorem c9_no_division_by_zero (d : Dungeon) (sx sy c s : ℚ) (fuel : ℕ)
    (h : ¬(c = 0 ∧ s = 0)) :
    deltaDist 0 = eratInf ∧ pygameCastRay d sx sy c s fuel ≠ CastOutcome.divZero := by
  refine ⟨by simp [deltaDist, eratInf], ?_⟩
  rw [pygameCastRay]
  cases hdda : pygameDdaHit d sx sy c s fuel with
  | none => simp
  | some trip =>
    obtain ⟨mX, mY, side⟩ := trip
    by_cases hc : c = 0
    · have hs : ¬s = 0 := fun h0 => h ⟨hc, h0⟩
      have hside : side = true := by
        rw [pygameDdaHit, hc] at hdda
        norm_num [deltaDist, eratScale, eratInf] at hdda
        exact ddaLoop_inf_x_side d _ _ _ fuel _ _ _ mX mY side hdda
      rw [hside]
      simp [hs]
    · by_cases hside : side = false
      · rw [hside]
        simp [hc]
      · have hside' : side = true := by revert hside; cases side <;> simp
        rw [hside']
        by_cases hs : s = 0
        · exfalso
          rw [pygameDdaHit, hs] at hdda
          simp only [deltaDist, if_neg hc, eratFin] at hdda
          norm_num [eratScale, eratInf] at hdda
          by_cases hlt : c < 0
          · rw [if_pos hlt, if_pos hlt] at hdda
            have hfalse := ddaLoop_inf_y_side d _ _ _ fuel _ _ _ mX mY side hdda
            rw [hside'] at hfalse
            cases hfalse
          · rw [if_neg hlt, if_neg hlt] at hdda
            have hfalse := ddaLoop_inf_y_side d _ _ _ fuel _ _ _ mX mY side hdda
            rw [hside'] at hfalse
            cases hfalse
        · simp [hs]

/-- Claim C10: from an in-bounds starting cell on a grid with positive
dimensions, the unbounded DDA loop of the pixel-canvas cast terminates:
each iteration moves the cell index exactly one step along one axis with
a fixed sign, so `width + height` iterations suffice to reach a `WALL`
or leave the bounds. -/
theorem c10_dda_terminates (d : Dungeon) (sx sy c s : ℚ)
    (hx0 : 0 ≤ pyInt sx) (hxw : pyInt sx < (d.width : ℤ))
    (hy0 : 0 ≤ pyInt sy) (hyh : pyInt sy < (d.height : ℤ)) :
    pygameDdaHit d sx sy c s (d.width + d.height) ≠ none ∧
    pygameCastRay d sx sy c s (d.width + d.height) ≠ CastOutcome.noFuel := by
  have h1 : pygameDdaHit d sx sy c s (d.width + d.height) ≠ none := by
    simp only [pygameDdaHit]
    refine ddaLoop_terminates d _ _ _ _ ?_ ?_ (d.width + d.height) (pyInt sx) (pyInt sy)
      _ _ hx0 hxw hy0 hyh ?_
    · by_cases hc : c < 0 <;> simp [hc]
    · by_cases hs0 : s < 0 <;> simp [hs0]
    · by_cases hc : c < 0 <;> by_cases hs0 : s < 0 <;>
        norm_num [ddaMeasure, hc, hs0] <;> omega
  refine ⟨h1, ?_⟩
  rw [pygameCastRay]
  cases hdda : pygameDdaHit d sx sy c s (d.width + d.height) with
  | none => exact absurd hdda h1
  | some trip =>
    obtain ⟨mX, mY, side⟩ := trip
    cases side <;> simp <;> split_ifs <;> simp

/-- Claim C6: on bearings within half the field of view, the horizontal
screen coordinate of a sprite is monotone in its bearing in both
backends, and a sprite at bearing exactly 0 maps to the horizontal
screen center (`int(width/2)` for the pixel backend's integer
coordinate, `width/2` for the character backend's real-valued center
column). -/
theorem c6_sprite_screen_monotone_center (fov : ℚ) (w : ℕ) (b1 b2 : ℚ)
    (hf : 0 < fov) (h1 : -(fov/2) ≤ b1) (h12 : b1 ≤ b2) (h2 : b2 ≤ fov/2) :
    pygameSpriteScreenX fov w b1 ≤ pygameSpriteScreenX fov w b2 ∧
    cursesEntityCenterColumn fov w b1 ≤ cursesEntityCenterColumn fov w b2 ∧
    pygameSpriteScreenX fov w 0 = pyInt ((w : ℚ) / 2) ∧
    cursesEntityCenterColumn fov w 0 = (w : ℚ) / 2 := by
  have hh : 0 < fov / 2 := by linarith
  have hw0 : (0 : ℚ) ≤ (w : ℚ) := by positivity
  have hq : b1 / (fov / 2) ≤ b2 / (fov / 2) := by
    exact div_le_div_of_nonneg_right h12 hh.le
  have hm1 : (-1 : ℚ) ≤ b1 / (fov / 2) := by
    have h0 : -(fov / 2) / (fov / 2) ≤ b1 / (fov / 2) :=
      div_le_div_of_nonneg_right h1 hh.le
    rwa [neg_div, div_self (ne_of_gt hh)] at h0
  refine ⟨?_, ?_, ?_, ?_⟩
  · rw [pygameSpriteScreenX, pygameSpriteScreenX]
    apply pyInt_mono_of_nonneg
    · have hx : (0 : ℚ) ≤ b1 / (fov / 2) + 1 := by linarith
      exact div_nonneg (mul_nonneg hx hw0) (by norm_num)
    · have h3 : b1 / (fov / 2) + 1 ≤ b2 / (fov / 2) + 1 := by linarith
      have h4 := mul_le_mul_of_nonneg_right h3 hw0
      linarith
  · rw [cursesEntityCenterColumn, cursesEntityCenterColumn]
    have h3 : (w : ℚ) * (b1 + fov / 2) ≤ (w : ℚ) * (b2 + fov / 2) :=
      mul_le_mul_of_nonneg_left (by linarith) hw0
    exact div_le_div_of_nonneg_right h3 hf.le
  · rw [pygameSpriteScreenX]
    norm_num
  · rw [cursesEntityCenterColumn]
    field_simp
    ring

/-- Witness for claim C6 at `fov = 2`, `width = 100`, bearings -1 and 1. -/
theorem c6_witness :
    ((0 : ℚ) < 2 ∧ -((2 : ℚ) / 2) ≤ -1 ∧ (-1 : ℚ) ≤ 1 ∧ (1 : ℚ) ≤ 2 / 2) ∧
    (pygameSpriteScreenX 2 100 (-1) ≤ pygameSpriteScreenX 2 100 1 ∧
      cursesEntityCenterColumn 2 100 (-1) ≤ cursesEntityCenterColumn 2 100 1 ∧
      pygameSpriteScreenX 2 100 0 = pyInt ((100 : ℚ) / 2) ∧
      cursesEntityCenterColumn 2 100 0 = (100 : ℚ) / 2) :=
  ⟨⟨by norm_num, by norm_num, by norm_num, by norm_num⟩,
    c6_sprite_screen_monotone_center 2 100 (-1) 1 (by norm_num) (by norm_num)
      (by norm_num) (by norm_num)⟩

/-- Claim C7: the sprite placement engine emits the surviving sprites in
non-increasing distance order, farthest first: the render queue
(collected sprites sorted by `reverse=True` on distance) is pairwise
sorted by `≥` on squared distance, hence on distance.  Per-sprite
culling inside `render_sprite` drops elements but keeps this order. -/
theorem c7_sprites_sorted_far_to_near (ents : List Entity) (items : List MapItem)
    (px py : ℚ) :
    List.Pairwise (fun a b : SpriteCand => b.dSq ≤ a.dSq)
      (renderQueue ents items px py) := by
  have htrans : ∀ a b c : SpriteCand, spriteFarther a b = true →
      spriteFarther b c = true → spriteFarther a c = true := by
    intro a b c hab hbc
    simp only [spriteFarther, decide_eq_true_eq] at *
    exact le_trans hbc hab
  have htot : ∀ a b : SpriteCand, (spriteFarther a b || spriteFarther b a) = true := by
    intro a b
    simp only [spriteFarther, Bool.or_eq_true, decide_eq_true_eq]
    exact le_total b.dSq a.dSq
  have h := List.sorted_mergeSort htrans htot (collectSprites ents items px py)
  rw [renderQueue]
  refine h.imp ?_
  intro a b hab
  simpa [spriteFarther] using hab

/-- Witness for claim C9: a straight-up bearing (components `(0, 1)`) on
the 5×5 grid casts without any division by zero. -/
theorem c9_witness :
    ¬((0 : ℚ) = 0 ∧ (1 : ℚ) = 0) ∧
    (deltaDist 0 = eratInf ∧
      pygameCastRay grid5 (5/2) (5/2) 0 1 10 ≠ CastOutcome.divZero) :=
  ⟨by norm_num, c9_no_division_by_zero grid5 (5/2) (5/2) 0 1 10 (by norm_num)⟩

/-- Witness for claim C10: the viewer cell (2, 2) is in bounds on the
5×5 grid, and the DDA halts within `width + height` iterations. -/
theorem c10_witness :
    (0 ≤ pyInt (5/2) ∧ pyInt (5/2) < (grid5.width : ℤ) ∧
      0 ≤ pyInt (5/2) ∧ pyInt (5/2) < (grid5.height : ℤ)) ∧
    (pygameDdaHit grid5 (5/2) (5/2) 1 1 (grid5.width + grid5.height) ≠ none ∧
      pygameCastRay grid5 (5/2) (5/2) 1 1 (grid5.width + grid5.height) ≠
        CastOutcome.noFuel) :=
  ⟨⟨by norm_num [pyInt], by norm_num [pyInt, grid5], by norm_num [pyInt],
      by norm_num [pyInt, grid5]⟩,
    c10_dda_terminates grid5 (5/2) (5/2) 1 1 (by norm_num [pyInt])
      (by norm_num [pyInt, grid5]) (by norm_num [pyInt])
      (by norm_num [pyInt, grid5])⟩


/-- A sprite produced by one grid step of `render_entities_on_column`
records exactly that step as its distance. -/
theorem cursesSpriteAtStep_step (x : ℤ) (ents : List Entity) (items : List MapItem)
    (px py c s bearing fov : ℚ) (width : ℕ) (step : ℕ) (sp : ColumnSprite)
    (h : cursesSpriteAtStep x ents items px py c s bearing fov width step = some sp) :
    sp.step = step := by
  rw [cursesSpriteAtStep] at h
  split at h
  · next found heq =>
      cases h
      obtain ⟨e, -, hfe⟩ := List.exists_of_findSome?_eq_some heq
      split at hfe
      · cases hfe; rfl
      · cases hfe
  · next heq =>
      obtain ⟨it, -, hfit⟩ := List.exists_of_findSome?_eq_some h
      split at hfit
      · cases hfit; rfl
      · cases hfit

/-- Claim C1 (amended): the character-cell backend's column sprite pass
only draws a sprite found within the column's wall distance — an emitted
sprite's recorded distance is between 1 and the wall distance `dist`
already cast for the column, so a sprite behind the wall at its column is
never drawn.  (The pixel-canvas backend performs no such occlusion test —
see the counterexample.) -/
theorem c1_curses_sprite_within_wall_distance (x : ℤ) (ents : List Entity)
    (items : List MapItem) (px py c s bearing dist fov : ℚ) (width : ℕ)
    (sp : ColumnSprite)
    (h : cursesColumnSprite x ents items px py c s bearing dist fov width = some sp) :
    1 ≤ sp.step ∧ (sp.step : ℚ) ≤ dist := by
  rw [cursesColumnSprite] at h
  obtain ⟨a, ha, hfa⟩ := List.exists_of_findSome?_eq_some h
  have hstep := cursesSpriteAtStep_step x ents items px py c s bearing fov width a sp hfa
  obtain ⟨ha1, ha2⟩ := List.mem_range'_1.mp ha
  refine ⟨by omega, ?_⟩
  have hle : (sp.step : ℤ) ≤ pyInt dist := by omega
  have hd0 : (0 : ℚ) ≤ dist := by
    by_contra hneg
    push_neg at hneg
    have := pyInt_nonpos_of_neg hneg
    omega
  rw [pyInt_of_nonneg hd0] at hle
  calc (sp.step : ℚ) ≤ (⌊dist⌋ : ℚ) := by exact_mod_cast hle
  _ ≤ dist := Int.floor_le dist

/-- Witness for claim C1 (amended): a goblin one tile ahead of the
viewer is drawn on the center column at step distance 1 ≤ wall distance
3/2. -/
theorem c1_witness :
    cursesColumnSprite 50 [⟨3, 2, 5, EntityType.GOBLIN⟩] [] (5/2) (5/2) 1 0 0 (3/2)
        1 100 = some ⟨1, 'g'⟩ ∧
    (1 ≤ (ColumnSprite.mk 1 'g').step ∧ ((ColumnSprite.mk 1 'g').step : ℚ) ≤ 3/2) := by
  have h : cursesColumnSprite 50 [⟨3, 2, 5, EntityType.GOBLIN⟩] [] (5/2) (5/2) 1 0 0
      (3/2) 1 100 = some ⟨1, 'g'⟩ := by
    norm_num [cursesColumnSprite, cursesSpriteAtStep, cursesEntityCenterColumn,
              List.range', List.findSome?, pyInt, EntityType.value]
    decide
  exact ⟨h, c1_curses_sprite_within_wall_distance 50 [⟨3, 2, 5, EntityType.GOBLIN⟩]
    [] (5/2) (5/2) 1 0 0 (3/2) 1 100 ⟨1, 'g'⟩ h⟩

/-- Claim C1 is false for the pixel-canvas backend: with the 5×5 grid,
viewer (2.5, 2.5) heading 0 and a goblin at cell (4, 2), the wall
distance already cast for the sprite's screen column (the center column,
`camera_x = 0`, bearing 0) is 3/2, the sprite's distance is 2 > 3/2, yet
the sprite survives collection and `render_sprite` draws it (a 50×50
rectangle) — there is no occlusion test.  The fov stand-in 1047/1000 ≈
π/3 is irrelevant at bearing 0, which passes the field-of-view test for
every positive fov. -/
theorem c1_pygame_sprite_not_occluded_cex :
    pygameCameraX 100 50 = 0 ∧
    pygameCastRay grid5 (5/2) (5/2) 1 0 5 = .ok (3/2) true ∧
    collectSprites [⟨4, 2, 5, EntityType.GOBLIN⟩] [] (5/2) (5/2) =
      [⟨true, EntityType.GOBLIN, 4, 2, 0⟩] ∧
    pygameRenderSprite (1047/1000) 100 100 2 0 true EntityType.GOBLIN =
      some ⟨25, 25, 75, 75⟩ ∧
    ¬((2 : ℚ) ≤ 3/2) := by
  refine ⟨by norm_num [pygameCameraX], ?_, ?_, ?_, by norm_num⟩
  · norm_num [pygameCastRay, pygameDdaHit, ddaLoop, deltaDist, eratLt, eratAdd, eratScale,
              eratInf, eratFin, gridOOB, cellAt, grid5, pyInt,
              show (CellType.FLOOR = CellType.WALL) = False by simp]
  · norm_num [collectSprites, List.filterMap, maxDepth]
    decide
  · norm_num [pygameRenderSprite, pyInt]
    decide

/-- Away from the grid edge (viewer coordinate at least half the window)
the sampled minimap world coordinate coincides with the integer-centered
window's coordinate. -/
theorem minimapWorld_eq (p : ℚ) (m : ℕ) (hp : 6 ≤ p) :
    minimapWorld p m = pyInt p - ((minimapSize / 2 : ℕ) : ℤ) + m := by
  rw [minimapWorld, minimapSize]
  have hm : (0 : ℚ) ≤ (m : ℚ) := by positivity
  have h1 : (0 : ℚ) ≤ p - ((12 / 2 : ℕ) : ℚ) + m := by push_cast; linarith
  rw [pyInt_of_nonneg h1, pyInt_of_nonneg (by linarith : (0:ℚ) ≤ p)]
  have h2 : p - ((12 / 2 : ℕ) : ℚ) + (m : ℚ) = p + (((m : ℤ) - 6 : ℤ) : ℚ) := by
    push_cast; ring
  rw [h2, Int.floor_add_int]
  push_cast
  ring

/-- Claim C8 (amended): for viewer coordinates at least 6 (half the
12-cell window), the character-cell minimap is exactly the
windowSize×windowSize orthographic window centered on the viewer's
integer position described by the spec (`minimapSpecCell`, modelled from
the spec's words), and for every pose the center cell is always the
viewer's heading-direction glyph.  Nearer the grid edge the code's
truncation `int(player - 6 + m)` deviates from the centered window — see
the counterexample; the pixel-canvas backend draws the whole scaled grid
rather than a window. -/
theorem c8_minimap_centered_window_amended (d : Dungeon) (ents : List Entity)
    (items : List MapItem) (px py t : ℚ) (mx my : ℕ)
    (hx : 6 ≤ px) (hy : 6 ≤ py) :
    renderMinimapCell d ents items px py t mx my =
      minimapSpecCell d ents items px py t mx my ∧
    renderMinimapCell d ents items px py t 6 6 = getDirectionChar t := by
  constructor
  · rw [renderMinimapCell, minimapSpecCell]
    by_cases hc : mx = minimapSize / 2 ∧ my = minimapSize / 2
    · rw [if_pos hc, if_pos hc]
    · rw [if_neg hc, if_neg hc, minimapWorld_eq px mx hx, minimapWorld_eq py my hy]
  · rw [renderMinimapCell]
    norm_num [minimapSize]

/-- Witness for claim C8 (amended) at viewer (8, 8) on the 8×8 grid. -/
theorem c8_minimap_witness :
    ((6 : ℚ) ≤ 8 ∧ (6 : ℚ) ≤ 8) ∧
    (renderMinimapCell gridC8 [] [] 8 8 0 3 5 = minimapSpecCell gridC8 [] [] 8 8 0 3 5 ∧
      renderMinimapCell gridC8 [] [] 8 8 0 6 6 = getDirectionChar 0) :=
  ⟨⟨by norm_num, by norm_num⟩,
    c8_minimap_centered_window_amended gridC8 [] [] 8 8 0 3 5
      (by norm_num) (by norm_num)⟩

/-- Claim C8 is false as stated: at viewer (2.5, 6.5), minimap offset
(3, 5) shows the `WALL` of world column 0 (truncation toward zero maps
`int(2.5 - 6 + 3) = 0`), while the centered window of the spec samples
world column `int(2.5) - 6 + 3 = -1`, outside the grid, hence blank. -/
theorem c8_minimap_not_centered_window_cex :
    renderMinimapCell gridC8 [] [] (5/2) (13/2) 0 3 5 = '█' ∧
    minimapSpecCell gridC8 [] [] (5/2) (13/2) 0 3 5 = ' ' ∧
    ('█' : Char) ≠ ' ' := by
  refine ⟨?_, ?_, by decide⟩
  · norm_num [renderMinimapCell, minimapSize, minimapWorld, minimapCellChar,
              gridOOB, cellAt, gridC8, pyInt]
  · norm_num [minimapSpecCell, minimapSize, minimapCellChar,
              gridOOB, cellAt, gridC8, pyInt]
